import Mathlib

/-!
Verification of the lgtm command-line client (src/lgtm.py).

The Python source is shallowly embedded below.  Strings that the program
splits and scans character by character (remote URLs, line-range options,
API error output) are modelled as `List Char`; strings only compared for
equality or concatenated (comment bodies, file paths, API field values)
are modelled as `String`.  Subprocess and HTTP calls are modelled by
explicit inputs (their results) and outputs (the requests the tool would
issue), so every command becomes a pure function from its inputs and the
results of its external calls to either an error (a non-zero exit) or a
normal outcome (a zero exit) carrying the mutations it performed.
-/

namespace LGTM

/-! ### Character-list string primitives

Models of the Python string operations used by lgtm.py: `sep in s`
(substring containment), `s.split(sep)` for a one-character separator,
`s.split(sep, 1)`, and `s.startswith(p)`. -/

/-- Tests whether `p` is a prefix of `s`; models Python `s.startswith(p)`. -/
def hasPre : List Char → List Char → Bool
  | [], _ => true
  | _ :: _, [] => false
  | p :: ps, c :: cs => p == c && hasPre ps cs

/-- Tests whether `pat` occurs as a contiguous substring of `s`;
models the Python expression `pat in s`. -/
def containsSub (pat : List Char) : List Char → Bool
  | [] => pat.isEmpty
  | c :: cs => hasPre pat (c :: cs) || containsSub pat cs

/-- Splits at every occurrence of `sep`; models Python `s.split(sep)` for a
one-character separator (the result is never empty, and empty pieces are
kept, exactly as in Python). -/
def splitOnChar (sep : Char) : List Char → List (List Char)
  | [] => [[]]
  | c :: cs =>
    match splitOnChar sep cs with
    | [] => [[c]]
    | r :: rs => if c = sep then [] :: r :: rs else (c :: r) :: rs

/-- Splits at the first occurrence of `sep` into the part before and the part
after it; models Python `s.split(sep, 1)` when `sep in s` holds (the callers
in lgtm.py only use it under that guard). -/
def splitFirst (sep : Char) : List Char → List Char × List Char
  | [] => ([], [])
  | c :: cs =>
    if c = sep then ([], cs)
    else ((c :: (splitFirst sep cs).1), (splitFirst sep cs).2)

/-! ### Python int() model -/

/-- Decimal value of a nonempty all-digit string, `none` otherwise. -/
def digitsToNat (s : List Char) : Option Nat :=
  if s ≠ [] ∧ s.all Char.isDigit then
    some (s.foldl (fun acc c => acc * 10 + (c.toNat - 48)) 0)
  else none

/-- Models Python `int(s)` restricted to an optional leading ASCII sign
followed by ASCII digits (`none` models a ValueError).  The CPython extras
— surrounding whitespace, underscore digit grouping, non-ASCII digits —
are not modelled; no input exercised by the claims uses them. -/
def pythonInt (s : List Char) : Option Int :=
  match s with
  | '-' :: rest => (digitsToNat rest).map (fun n => -(n : Int))
  | '+' :: rest => (digitsToNat rest).map (fun n => (n : Int))
  | _ => (digitsToNat s).map (fun n => (n : Int))

/-! ### parse_line_range (lgtm.py lines 112-122) -/

/-- Embeds `parse_line_range`: a `-` anywhere splits once at the first `-`
and parses both sides; otherwise a `:` splits once at the first `:`;
otherwise the whole string is one number used as both start and end.
`none` models the ValueError that `int` raises, which every caller turns
into a click error about an invalid line range format. -/
def parse_line_range (s : List Char) : Option (Int × Int) :=
  if s.contains '-' then
    match pythonInt (splitFirst '-' s).1, pythonInt (splitFirst '-' s).2 with
    | some a, some b => some (a, b)
    | _, _ => none
  else if s.contains ':' then
    match pythonInt (splitFirst ':' s).1, pythonInt (splitFirst ':' s).2 with
    | some a, some b => some (a, b)
    | _, _ => none
  else
    match pythonInt s with
    | some n => some (n, n)
    | none => none

/-! ### Remote URL resolution (GHApi.__init__, lgtm.py lines 24-36) -/

/-- Failure modes of `GHApi.__init__`: `configuration` models the explicit
`Exception` raised when neither GitHub marker occurs in the remote URL
(the ConfigurationError of the specification), and `indexError` models an
uncaught Python IndexError from `parts[i]` on a list that is too short. -/
inductive RemoteError where
  | configuration
  | indexError
deriving DecidableEq, Repr

/-- Embeds the remote-URL parsing of `GHApi.__init__`.  If the URL contains
the substring `git@github.com` it is split on `:`, piece 1 is split on `/`,
the org is piece 0 and the repo is piece 1 truncated at its first `.`;
otherwise if it contains `https://github.com` it is split on `/` and pieces
3 and 4 are used the same way; otherwise the constructor raises. -/
def parseRemote (remote : List Char) : Except RemoteError (List Char × List Char) :=
  if containsSub "git@github.com".data remote then
    match (splitOnChar ':' remote).get? 1 with
    | none => .error .indexError
    | some p1 =>
      let parts := splitOnChar '/' p1
      match parts.get? 0, parts.get? 1 with
      | some org, some repoRaw =>
        .ok (org, ((splitOnChar '.' repoRaw).headD []))
      | _, _ => .error .indexError
  else if containsSub "https://github.com".data remote then
    let parts := splitOnChar '/' remote
    match parts.get? 3, parts.get? 4 with
    | some org, some repoRaw =>
      .ok (org, ((splitOnChar '.' repoRaw).headD []))
    | _, _ => .error .indexError
  else
    .error .configuration

/-- An SSH-form remote URL `git@github.com:org/repo` with an optional
suffix (empty or `.git`), built for stating the resolver property. -/
def sshUrl (org repo suffix : List Char) : List Char :=
  "git@github.com".data ++ ':' :: (org ++ '/' :: (repo ++ suffix))

/-- An HTTPS-form remote URL `https://github.com/org/repo` with an optional
suffix (empty or `.git`), built for stating the resolver property. -/
def httpsUrl (org repo suffix : List Char) : List Char :=
  "https:".data ++ '/' :: ([] ++ '/' :: ("github.com".data ++ '/' ::
    (org ++ '/' :: (repo ++ suffix))))

/-- The inputs the specification declares valid for line-range parsing:
a bare number, or two numbers joined by `-` or by `:`, where a number is
any string the int model accepts. -/
def RangeForm (s : List Char) : Prop :=
  (pythonInt s).isSome = true ∨
  (∃ a b, s = a ++ '-' :: b ∧
    (pythonInt a).isSome = true ∧ (pythonInt b).isSome = true) ∨
  (∃ a b, s = a ++ ':' :: b ∧
    (pythonInt a).isSome = true ∧ (pythonInt b).isSome = true)

/-! ### Comment data model (spec section 3, lgtm.py JSON records)

The review-comment endpoint pulls/NUM/comments yields records whose
path key is always present (lgtm.py indexes the path key without a
guard) and whose line and in_reply_to_id keys may be absent (lgtm.py
tests key presence before reading them).  The
issue-comment endpoint issues/NUM/comments yields pull-request-level
records of which lgtm.py only reads `id` and `body`; they carry no `path`,
`line` or `in_reply_to_id` key. -/

/-- A review comment as consumed by lgtm.py: required `path`, optional
`line` and `in_reply_to_id` (`none` models an absent key). -/
structure ReviewComment where
  id : Nat
  body : String
  path : String
  line : Option Int
  in_reply_to_id : Option Nat
deriving DecidableEq, Repr

/-- A pull-request-level (issue) comment as consumed by lgtm.py. -/
structure IssueComment where
  id : Nat
  body : String
deriving DecidableEq, Repr

/-- Embeds the line-range filters of view/comment/edit (lgtm.py lines
339-344, 487-492, 655-660): with a single-line range the comment must carry
a `line` key equal to it, with a wider range the `line` key must fall in the
inclusive range. -/
def selectLine (comments : List ReviewComment) (startLine endLine : Int) :
    List ReviewComment :=
  if startLine = endLine then
    comments.filter (fun c =>
      match c.line with
      | some l => l == startLine
      | none => false)
  else
    comments.filter (fun c =>
      match c.line with
      | some l => decide (startLine ≤ l) && decide (l ≤ endLine)
      | none => false)

/-- Embeds the latest-comment loops of comment/edit (lgtm.py lines 429-432,
494-498, 628-631, 662-666): walk the scoped list and keep the most recent
comment that carries no `in_reply_to_id` key. -/
def latestRoot (comments : List ReviewComment) : Option ReviewComment :=
  comments.foldl
    (fun latest c => if c.in_reply_to_id = none then some c else latest)
    none

/-! ### selectScope (spec section 4.2)

The commands pick their comment universe in two steps: with no `--file`
they call the issue-comment endpoint, whose records are exactly the
comments with no path; with `--file` they call the review-comment endpoint
and filter by equality of the path key with the file (lgtm.py lines 287,
416, 615), and
with `--line` additionally by the line-range filters above.  `selectScope`
expresses the combined selection over one universe of scoped comments in
which `path = none` marks a pull-request-level comment. -/

/-- A comment in the combined scope universe: `path = none` is a
pull-request-level comment, `line = none` a file-level one. -/
structure SComment where
  id : Nat
  body : String
  path : Option String
  line : Option Int
  in_reply_to_id : Option Nat
deriving DecidableEq, Repr

/-- Scope selection of view/comment/edit over the combined universe:
no path keeps the pull-request-level comments (the issue endpoint), a path
alone filters by it, a path with a range further applies the line-range
filter of lgtm.py lines 339-344, 487-492 and 655-660. -/
def selectScope (comments : List SComment) (path : Option String)
    (range : Option (Int × Int)) : List SComment :=
  match path with
  | none => comments.filter (fun c => c.path == none)
  | some f =>
    let byPath := comments.filter (fun c => c.path == some f)
    match range with
    | none => byPath
    | some (a, b) =>
      if a = b then
        byPath.filter (fun c =>
          match c.line with
          | some l => l == a
          | none => false)
      else
        byPath.filter (fun c =>
          match c.line with
          | some l => decide (a ≤ l) && decide (l ≤ b)
          | none => false)

/-! ### Review-comment creation requests (lgtm.py lines 465-475, 534-549)

The source builds the `gh api` argument list as alternating `-f key=value`
and `-F key=value` pairs; each pair is modelled as one `(key, value)`
entry, in the order the source appends them. -/

/-- Field list of the file-level creation request (lgtm.py lines 467-475). -/
def fileCommentParams (text head file : String) : List (String × String) :=
  [("body", text), ("commit_id", head), ("path", file),
   ("side", "RIGHT"), ("subject_type", "file")]

/-- Field list of the line-level creation request (lgtm.py lines 537-549):
the anchor `line` field always holds the end line, and only a strict
multi-line range appends `start_line` and `start_side`. -/
def lineCommentParams (text head file : String) (startLine endLine : Int) :
    List (String × String) :=
  [("body", text), ("commit_id", head), ("path", file),
   ("line", toString endLine), ("side", "RIGHT")] ++
  (if startLine ≠ endLine then
    [("start_line", toString startLine), ("start_side", "RIGHT")]
  else [])

/-! ### gh_api error handling (GHApi.gh_api, lgtm.py lines 38-76) -/

/-- An exception raised by `GHApi.gh_api` on a failed subprocess call:
the dedicated FileNotInPRError, the ValidationError wrapper, or the
re-raised original CalledProcessError. -/
inductive ApiError where
  | fileNotInPR (message : String)
  | validation (message : String)
  | other (message : String)
deriving DecidableEq, Repr

/-- Embeds the path-extraction loop of lgtm.py lines 59-64: scan the extra
`gh api` arguments for the first `-f` that has a successor; if that
successor starts with `path=` the remainder names the file, otherwise the
default text is kept.  The Python loop breaks at the first such `-f`
whether or not the successor is a `path=` field. -/
def extractFilePath : List String → String
  | [] => "specified file"
  | a :: rest =>
    match rest with
    | b :: _ =>
      if a = "-f" then
        if hasPre "path=".data b.data then String.mk (b.data.drop 5)
        else "specified file"
      else extractFilePath rest
    | [] => "specified file"

/-- The guidance message of the FileNotInPRError (lgtm.py lines 66-71). -/
def fileNotInPRMessage (filePath : String) : String :=
  "The file \x27" ++ filePath ++
  "\x27 is not part of this pull request\x27s changes.\nGitHub only allows comments on files that were modified in the PR.\nConsider:\n  • Adding a PR-level comment instead (omit --file option)\n  • Checking if the file path is correct\n  • Making sure the file was actually changed in this PR"

/-- Embeds the except-branch of `GHApi.gh_api` (lgtm.py lines 47-76):
given the error output of the failed subprocess and the extra arguments of
the call, decide which exception propagates. -/
def handle_api_error (errorOutput : String) (args : List String) : ApiError :=
  if containsSub "could not be resolved".data errorOutput.data &&
      containsSub "path".data errorOutput.data then
    .fileNotInPR (fileNotInPRMessage (extractFilePath args))
  else if containsSub "Validation Failed".data errorOutput.data then
    .validation ("GitHub API validation failed: " ++ errorOutput)
  else
    .other errorOutput

/-! ### Command models

Each click command is modelled as a pure function.  Inputs are the parsed
options, the comment lists the external API returned, the result the
editor produced, the confirmation answers, and the results of the external
calls the command may issue.  The value is `Except CmdError outcome`:
`.error` models a raised exception or ClickException (a non-zero exit),
`.ok` models a normal return (a zero exit), and the outcome constructors
record exactly which mutation requests the command issued. -/

/-- A failure that terminates a command with a non-zero exit: a raised
ClickException or an uncaught exception. -/
inductive CmdError where
  | lineWithoutFile
  | invalidLineRange
  | noCommentToEdit
  | emptyComment
  | noPrDetected
  | prNotFound
  | patchFailed (e : ApiError)
  | externalFailure (e : ApiError)
deriving DecidableEq, Repr

/-- Embeds `validate_pr` (lgtm.py lines 167-182): `detected` is the result
of the branch lookup used when no number is given, `viewOk` whether
`gh pr view` succeeded on a given number. -/
def validate_pr (pr : Option Nat) (detected : Option Nat) (viewOk : Bool) :
    Except CmdError Nat :=
  match pr with
  | none =>
    match detected with
    | some d => .ok d
    | none => .error .noPrDetected
  | some n => if viewOk then .ok n else .error .prNotFound

/-- Which PATCH endpoint an edit used (issue comments for the
pull-request-level branch, review comments otherwise). -/
inductive PatchKind where
  | issueComment
  | reviewComment
deriving DecidableEq, Repr

/-- Normal outcome of the edit command: either nothing changed or exactly
one comment body was patched. -/
inductive EditOutcome where
  | noChange
  | patched (kind : PatchKind) (commentId : Nat) (newBody : String)
deriving DecidableEq, Repr

/-- Shared tail of the file-level and line-level edit branches (lgtm.py
lines 625-651 and 653-685): resolve the latest root of the scoped list,
run the editor on its body, reject an empty result, skip the PATCH when
nothing changed, otherwise patch the review comment. -/
def editScoped (scopedComments : List ReviewComment) (editor : String → String)
    (patchResult : Except ApiError Unit) : Except CmdError EditOutcome :=
  match latestRoot scopedComments with
  | none => .error .noCommentToEdit
  | some latest =>
    let newBody := editor latest.body
    if newBody = "" then .error .emptyComment
    else if latest.body = newBody then .ok .noChange
    else
      match patchResult with
      | .ok _ => .ok (.patched .reviewComment latest.id newBody)
      | .error e => .error (.patchFailed e)

/-- Embeds the `edit` command (lgtm.py lines 562-685) after PR validation
and remote resolution.  `prComments` is the issue-endpoint result (the
fetch is wrapped in a bare except that substitutes an empty list),
`reviewComments` the review-endpoint result, `editor` the stripped content
the editor returns given the initial body, `patchResult` the result of the
PATCH call if one is issued. -/
def editCmd (prComments : List IssueComment)
    (reviewComments : List ReviewComment) (file : Option String)
    (line : Option (List Char)) (editor : String → String)
    (patchResult : Except ApiError Unit) : Except CmdError EditOutcome :=
  match file with
  | none =>
    match line with
    | some _ => .error .lineWithoutFile
    | none =>
      match prComments.getLast? with
      | none => .error .noCommentToEdit
      | some latest =>
        let newBody := editor latest.body
        if newBody = "" then .error .emptyComment
        else if latest.body = newBody then .ok .noChange
        else
          match patchResult with
          | .ok _ => .ok (.patched .issueComment latest.id newBody)
          | .error e => .error (.patchFailed e)
  | some f =>
    let byPath := reviewComments.filter (fun c => c.path == f)
    match line with
    | none => editScoped byPath editor patchResult
    | some l =>
      match parse_line_range l with
      | none => .error .invalidLineRange
      | some (s, e) => editScoped (selectLine byPath s e) editor patchResult

/-- Normal outcome of the comment command, recording which request (if
any) the command issued.  `emptyAborted` is the quiet return after an
empty editor result, `declined` the quiet return after answering no to
both prompts, and `creationFailed` the return after the creation call
failed and its error was only echoed (lgtm.py lines 477-482, 551-559). -/
inductive CommentOutcome where
  | prCommentCreated (text : String)
  | emptyAborted
  | replied (rootId : Nat) (text : String)
  | declined
  | created (params : List (String × String))
  | creationFailed (e : ApiError)
deriving DecidableEq, Repr

/-- External inputs of one comment-command invocation. -/
structure CommentEnv where
  commentText : Option String
  editorText : String
  confirmContinue : Bool
  confirmNew : Bool
  headResult : Except ApiError String
  replyResult : Except ApiError Unit
  createResult : Except ApiError Unit
  prCreateResult : Except ApiError Unit
deriving Repr

/-- Resolves the comment text: a truthy `--comment-text` value wins,
otherwise the editor content is used (lgtm.py lines 399-404, 435-439,
501-509; an empty option string is falsy in Python and opens the editor). -/
def resolveText (commentText : Option String) (editorText : String) : String :=
  match commentText with
  | some t => if t = "" then editorText else t
  | none => editorText

/-- Shared tail of the file-level and line-level comment branches: offer to
continue the latest thread, offer a new thread, then fetch the head commit
and create the comment with the given field list.  The creation call is
guarded: its failure is echoed and the command still returns normally. -/
def commentScoped (latest : Option ReviewComment) (text : String)
    (env : CommentEnv) (mkParams : String → List (String × String)) :
    Except CmdError CommentOutcome :=
  match latest with
  | some lc =>
    if env.confirmContinue then
      match env.replyResult with
      | .ok _ => .ok (.replied lc.id text)
      | .error e => .error (.externalFailure e)
    else if !env.confirmNew then .ok .declined
    else
      match env.headResult with
      | .error e => .error (.externalFailure e)
      | .ok head =>
        match env.createResult with
        | .ok _ => .ok (.created (mkParams head))
        | .error e => .ok (.creationFailed e)
  | none =>
    match env.headResult with
    | .error e => .error (.externalFailure e)
    | .ok head =>
      match env.createResult with
      | .ok _ => .ok (.created (mkParams head))
      | .error e => .ok (.creationFailed e)

/-- Embeds the `comment` command (lgtm.py lines 374-559) after PR
validation and remote resolution. -/
def commentCmd (reviewComments : List ReviewComment)
    (file : Option String) (line : Option (List Char)) (env : CommentEnv) :
    Except CmdError CommentOutcome :=
  match file with
  | none =>
    match line with
    | some _ => .error .lineWithoutFile
    | none =>
      let text := resolveText env.commentText env.editorText
      if text = "" then .ok .emptyAborted
      else
        match env.prCreateResult with
        | .ok _ => .ok (.prCommentCreated text)
        | .error e => .error (.externalFailure e)
  | some f =>
    let byPath := reviewComments.filter (fun c => c.path == f)
    match line with
    | none =>
      let text := resolveText env.commentText env.editorText
      if text = "" then .ok .emptyAborted
      else
        commentScoped (latestRoot byPath) text env
          (fun head => fileCommentParams text head f)
    | some l =>
      match parse_line_range l with
      | none => .error .invalidLineRange
      | some (s, e) =>
        let text := resolveText env.commentText env.editorText
        if text = "" then .ok .emptyAborted
        else
          commentScoped (latestRoot (selectLine byPath s e)) text env
            (fun head => lineCommentParams text head f s e)

/-- What the view command displays: the pull-request-level list plus all
root review comments, or the root comments of the file or line scope
(reply rendering below each root is omitted from the model). -/
inductive ViewOutput where
  | prView (issue : List IssueComment) (fileRoots : List ReviewComment)
  | fileView (roots : List ReviewComment)
  | lineView (roots : List ReviewComment)
deriving DecidableEq, Repr

/-- Embeds the comment-selection logic of the `view` command (lgtm.py
lines 192-371) after PR validation and remote resolution. -/
def viewCmd (prComments : List IssueComment)
    (reviewComments : List ReviewComment) (file : Option String)
    (line : Option (List Char)) : Except CmdError ViewOutput :=
  match file with
  | none =>
    match line with
    | some _ => .error .lineWithoutFile
    | none =>
      .ok (.prView prComments
        (reviewComments.filter (fun c => c.in_reply_to_id == none)))
  | some f =>
    let byPath := reviewComments.filter (fun c => c.path == f)
    match line with
    | none =>
      .ok (.fileView (byPath.filter (fun c => c.in_reply_to_id == none)))
    | some l =>
      match parse_line_range l with
      | none => .error .invalidLineRange
      | some (s, e) =>
        .ok (.lineView
          ((selectLine byPath s e).filter (fun c => c.in_reply_to_id == none)))

/-! ## Helper lemmas -/

theorem getLast?_cons_elim {α : Type} (c : α) (xs : List α) :
    (c :: xs).getLast? = (xs.getLast?).elim (some c) some := by
  induction xs generalizing c with
  | nil => rfl
  | cons b bs ih =>
    rw [List.getLast?_cons_cons, ih b]
    cases bs.getLast? <;> rfl

theorem latestRoot_foldl (l : List ReviewComment) (acc : Option ReviewComment) :
    l.foldl (fun latest c => if c.in_reply_to_id = none then some c else latest)
        acc
      = ((l.filter (fun c => c.in_reply_to_id == none)).getLast?).elim acc some := by
  induction l generalizing acc with
  | nil => rfl
  | cons c cs ih =>
    rw [List.foldl_cons, ih, List.filter_cons]
    by_cases h : c.in_reply_to_id = none
    · simp only [h, beq_self_eq_true, if_pos, if_true]
      rw [getLast?_cons_elim]
      cases (cs.filter (fun c => c.in_reply_to_id == none)).getLast? <;> rfl
    · have hb : (c.in_reply_to_id == none) = false := by
        simpa using h
      simp only [h, hb, if_false, Bool.false_eq_true, if_neg]

end LGTM

namespace LGTM

/-! ## Claim theorems

In the command models an `.error` value is a raised exception or click
error, so a command that evaluates to `.error` issues no mutation: every
patch or creation request appears only inside an `.ok` outcome
constructor (`patched`, `created`, `replied`, `prCommentCreated`). -/

/-- C1: for every scoped comment list, the latest-comment loop selects
exactly the last element of the list that carries no in_reply_to_id key
(listing order), and none when no such element exists; the Option result
makes at most one comment per scope the latest. -/
theorem latestRoot_is_last_root (l : List ReviewComment) :
    latestRoot l = (l.filter (fun c => c.in_reply_to_id == none)).getLast? := by
  rw [latestRoot, latestRoot_foldl]
  cases (l.filter (fun c => c.in_reply_to_id == none)).getLast? <;> rfl

/-- C2: scope selection with no path keeps exactly the comments with no
path; with a path and no range exactly the comments with that path; with a
path and inclusive range a..b exactly the comments with that path whose
line l satisfies a ≤ l ≤ b. -/
theorem selectScope_spec (cs : List SComment) (f : String) (a b : Int)
    (c : SComment) :
    (c ∈ selectScope cs none none ↔ c ∈ cs ∧ c.path = none) ∧
    (c ∈ selectScope cs (some f) none ↔ c ∈ cs ∧ c.path = some f) ∧
    (c ∈ selectScope cs (some f) (some (a, b)) ↔
      c ∈ cs ∧ c.path = some f ∧ ∃ l, c.line = some l ∧ a ≤ l ∧ l ≤ b) := by
  refine ⟨?_, ?_, ?_⟩
  · simp [selectScope, List.mem_filter]
  · simp [selectScope, List.mem_filter]
  · by_cases hab : a = b
    · subst hab
      cases hc : c.line with
      | none => simp [selectScope, List.mem_filter, hc]
      | some l =>
        simp [selectScope, List.mem_filter, hc, and_assoc]
        intro _
        constructor
        · rintro ⟨rfl, hp⟩
          exact ⟨hp, le_refl _, le_refl _⟩
        · rintro ⟨hp, h1, h2⟩
          exact ⟨le_antisymm h2 h1, hp⟩
    · cases hc : c.line with
      | none => simp [selectScope, hab, List.mem_filter, hc]
      | some l =>
        simp [selectScope, hab, List.mem_filter, hc, and_assoc]
        intro _
        constructor
        · rintro ⟨h1, h2, hp⟩
          exact ⟨hp, h1, h2⟩
        · rintro ⟨hp, h1, h2⟩
          exact ⟨h1, h2, hp⟩

theorem hasPre_append (p t : List Char) : hasPre p (p ++ t) = true := by
  induction p with
  | nil => rfl
  | cons x xs ih => simp [hasPre, ih]

theorem hasPre_exists {p s : List Char} (h : hasPre p s = true) :
    ∃ t, s = p ++ t := by
  induction p generalizing s with
  | nil => exact ⟨s, rfl⟩
  | cons x xs ih =>
    cases s with
    | nil => simp [hasPre] at h
    | cons c cs =>
      simp only [hasPre, Bool.and_eq_true, beq_iff_eq] at h
      obtain ⟨rfl, h2⟩ := h
      obtain ⟨t, rfl⟩ := ih h2
      exact ⟨t, rfl⟩

theorem containsSub_of_append_left (p t : List Char) :
    containsSub p (p ++ t) = true := by
  cases p with
  | nil =>
    cases t with
    | nil => rfl
    | cons c cs => simp [containsSub, hasPre]
  | cons q qs =>
    have h := hasPre_append (q :: qs) t
    simp only [List.cons_append] at h ⊢
    simp [containsSub, h]

theorem containsSub_cons_of (pat : List Char) (x : Char) (s : List Char)
    (h : containsSub pat s = true) : containsSub pat (x :: s) = true := by
  simp [containsSub, h]

theorem containsSub_append_right (a : List Char) {pat s : List Char}
    (h : containsSub pat s = true) : containsSub pat (a ++ s) = true := by
  induction a with
  | nil => simpa using h
  | cons x xs ih => simpa using containsSub_cons_of _ x _ ih

theorem mem_of_containsSub {pat s : List Char} (h : containsSub pat s = true)
    {c : Char} (hc : c ∈ pat) : c ∈ s := by
  induction s with
  | nil =>
    rw [show containsSub pat [] = pat.isEmpty from rfl] at h
    rw [List.isEmpty_iff] at h
    subst h
    cases hc
  | cons x xs ih =>
    simp only [containsSub, Bool.or_eq_true] at h
    rcases h with h | h
    · obtain ⟨t, ht⟩ := hasPre_exists h
      rw [ht]
      exact List.mem_append.2 (Or.inl hc)
    · exact List.mem_cons_of_mem x (ih h)

theorem splitOnChar_ne_nil (sep : Char) (s : List Char) :
    splitOnChar sep s ≠ [] := by
  cases s with
  | nil => simp [splitOnChar]
  | cons c cs =>
    simp only [splitOnChar]
    cases h : splitOnChar sep cs with
    | nil => simp
    | cons r rs => by_cases hc : c = sep <;> simp [hc]

theorem splitOnChar_sep_cons (sep : Char) (b : List Char) :
    splitOnChar sep (sep :: b) = [] :: splitOnChar sep b := by
  simp only [splitOnChar]
  cases h : splitOnChar sep b with
  | nil => exact absurd h (splitOnChar_ne_nil sep b)
  | cons r rs => simp

theorem splitOnChar_append (sep : Char) (a b : List Char) (h : sep ∉ a) :
    splitOnChar sep (a ++ sep :: b) = a :: splitOnChar sep b := by
  induction a with
  | nil => simpa using splitOnChar_sep_cons sep b
  | cons x xs ih =>
    have hx : x ≠ sep := fun hxx => h (hxx ▸ List.mem_cons_self x xs)
    have hxs : sep ∉ xs := fun hm => h (List.mem_cons_of_mem x hm)
    simp only [List.cons_append, splitOnChar, hx, if_false, List.append_eq]
    rw [ih hxs]

theorem splitOnChar_no_sep (sep : Char) (a : List Char) (h : sep ∉ a) :
    splitOnChar sep a = [a] := by
  induction a with
  | nil => rfl
  | cons x xs ih =>
    have hx : x ≠ sep := fun hxx => h (hxx ▸ List.mem_cons_self x xs)
    have hxs : sep ∉ xs := fun hm => h (List.mem_cons_of_mem x hm)
    simp only [splitOnChar, ih hxs]
    simp [hx]

theorem not_mem_app {c : Char} {x y : List Char} (h1 : c ∉ x) (h2 : c ∉ y) :
    c ∉ x ++ y := by
  intro hm
  rcases List.mem_append.1 hm with hm | hm
  · exact h1 hm
  · exact h2 hm

theorem not_mem_seg {c sep : Char} {x y z : List Char} (h1 : c ∉ x)
    (h2 : c ∉ y) (h3 : c ∉ z) (hsep : c ≠ sep) :
    c ∉ x ++ sep :: (y ++ z) := by
  intro hm
  rcases List.mem_append.1 hm with hm | hm
  · exact h1 hm
  · rcases List.mem_cons.1 hm with hm | hm
    · exact hsep hm
    · exact not_mem_app h2 h3 hm

theorem contains_iff_mem (s : List Char) (c : Char) :
    s.contains c = true ↔ c ∈ s := by
  simp [List.contains]

theorem splitFirst_eq (sep : Char) (s : List Char) (h : sep ∈ s) :
    s = (splitFirst sep s).1 ++ sep :: (splitFirst sep s).2 := by
  induction s with
  | nil => cases h
  | cons c cs ih =>
    by_cases hc : c = sep
    · subst hc
      simp [splitFirst]
    · have hm : sep ∈ cs := by
        rcases List.mem_cons.1 h with h1 | h1
        · exact absurd h1.symm hc
        · exact h1
      simp only [splitFirst, hc, if_false, List.cons_append]
      exact congrArg (c :: ·) (ih hm)

/-- C4 counterexample: on the SSH-form URL git@github.com:org/my.repo.git
the resolver returns the repository name truncated at its first dot, my,
not my.repo with only the trailing .git stripped as the claim states. -/
theorem remoteResolver_counterexample :
    parseRemote "git@github.com:org/my.repo.git".data =
      .ok ("org".data, "my".data) ∧
    ("my".data : List Char) ≠ "my.repo".data :=
  ⟨rfl, by decide⟩

/-- C4 (amended): for SSH- and HTTPS-form URLs whose host is github.com
and whose org and repo avoid the separator characters, with repo
containing no dot at all, the resolver returns (org, repo) with an
optional trailing .git stripped; in general the repo name is truncated at
its first dot, and only the github.com forms are recognised.  A URL
containing neither github.com marker fails with the ConfigurationError. -/
theorem remoteResolver_amended (org repo suffix : List Char)
    (hsuffix : suffix = [] ∨ suffix = ".git".data)
    (ho1 : ':' ∉ org) (ho2 : '/' ∉ org) (ho3 : '@' ∉ org)
    (hr1 : ':' ∉ repo) (hr2 : '/' ∉ repo) (hr3 : '@' ∉ repo)
    (hr4 : '.' ∉ repo) :
    parseRemote (sshUrl org repo suffix) = .ok (org, repo) ∧
    parseRemote (httpsUrl org repo suffix) = .ok (org, repo) ∧
    (∀ r : List Char, containsSub "git@github.com".data r = false →
      containsSub "https://github.com".data r = false →
      parseRemote r = .error .configuration) := by
  have hsfx : ':' ∉ suffix ∧ '/' ∉ suffix ∧ '@' ∉ suffix := by
    rcases hsuffix with rfl | rfl
    · exact ⟨by decide, by decide, by decide⟩
    · exact ⟨by decide, by decide, by decide⟩
  obtain ⟨hs1, hs2, hs3⟩ := hsfx
  have e3 : (splitOnChar '.' (repo ++ suffix)).head?.getD [] = repo := by
    rcases hsuffix with rfl | rfl
    · rw [List.append_nil, splitOnChar_no_sep _ _ hr4]
      rfl
    · show (splitOnChar '.' (repo ++ '.' :: "git".data)).head?.getD [] = repo
      rw [splitOnChar_append _ _ _ hr4]
      rfl
  refine ⟨?_, ?_, ?_⟩
  · have hc1 : containsSub "git@github.com".data (sshUrl org repo suffix)
        = true := containsSub_of_append_left _ _
    have e1 : splitOnChar ':' (sshUrl org repo suffix)
        = ["git@github.com".data, org ++ '/' :: (repo ++ suffix)] := by
      rw [sshUrl, splitOnChar_append _ _ _ (by decide),
        splitOnChar_no_sep _ _ (not_mem_seg ho1 hr1 hs1 (by decide))]
    have e2 : splitOnChar '/' (org ++ '/' :: (repo ++ suffix))
        = [org, repo ++ suffix] := by
      rw [splitOnChar_append _ _ _ ho2,
        splitOnChar_no_sep _ _ (not_mem_app hr2 hs2)]
    simp [parseRemote, hc1, e1, e2, e3]
  · have hc2 : containsSub "git@github.com".data (httpsUrl org repo suffix)
        = false := by
      cases h : containsSub "git@github.com".data (httpsUrl org repo suffix) with
      | false => rfl
      | true =>
        exfalso
        have hat : '@' ∈ httpsUrl org repo suffix :=
          mem_of_containsSub h (by decide)
        rw [httpsUrl, List.nil_append] at hat
        rcases List.mem_append.1 hat with hm | hm
        · exact absurd hm (by decide)
        · rcases List.mem_cons.1 hm with hm | hm
          · exact absurd hm (by decide)
          · rcases List.mem_cons.1 hm with hm | hm
            · exact absurd hm (by decide)
            · rcases List.mem_append.1 hm with hm | hm
              · exact absurd hm (by decide)
              · rcases List.mem_cons.1 hm with hm | hm
                · exact absurd hm (by decide)
                · exact not_mem_seg ho3 hr3 hs3 (by decide) hm
    have hc3 : containsSub "https://github.com".data (httpsUrl org repo suffix)
        = true := by
      have hrw : httpsUrl org repo suffix
          = "https://github.com".data ++ ('/' :: (org ++ '/' :: (repo ++ suffix))) := by
        rw [httpsUrl]
        rfl
      rw [hrw]
      exact containsSub_of_append_left _ _
    have e4 : splitOnChar '/' (httpsUrl org repo suffix)
        = ["https:".data, [], "github.com".data, org, repo ++ suffix] := by
      rw [httpsUrl, List.nil_append, splitOnChar_append _ _ _ (by decide),
        splitOnChar_sep_cons, splitOnChar_append _ _ _ (by decide),
        splitOnChar_append _ _ _ ho2,
        splitOnChar_no_sep _ _ (not_mem_app hr2 hs2)]
    simp [parseRemote, hc2, hc3, e4, e3]
  · intro r h1 h2
    simp [parseRemote, h1, h2]

/-- Closed instance of the amended C4 theorem at concrete URLs. -/
theorem remoteResolver_amended_witness :
    parseRemote (sshUrl "myorg".data "myrepo".data ".git".data)
      = .ok ("myorg".data, "myrepo".data) ∧
    parseRemote (httpsUrl "myorg".data "myrepo".data ".git".data)
      = .ok ("myorg".data, "myrepo".data) ∧
    parseRemote "ftp://example.com/a/b".data = .error .configuration := by
  obtain ⟨h1, h2, h3⟩ := remoteResolver_amended "myorg".data "myrepo".data
    ".git".data (Or.inr rfl) (by decide) (by decide) (by decide) (by decide)
    (by decide) (by decide) (by decide)
  exact ⟨h1, h2, h3 _ (by decide) (by decide)⟩

/-- C5: line-range parsing maps 5 to (5,5), 5-10 to (5,10), 5:10 to
(5,10), fails on abc, and fails on every input that is not a bare number,
a number-dash-number pair, or a number-colon-number pair. -/
theorem parse_line_range_spec :
    parse_line_range "5".data = some (5, 5) ∧
    parse_line_range "5-10".data = some (5, 10) ∧
    parse_line_range "5:10".data = some (5, 10) ∧
    parse_line_range "abc".data = none ∧
    (∀ s : List Char, ¬ RangeForm s → parse_line_range s = none) := by
  refine ⟨by decide, by decide, by decide, by decide, ?_⟩
  intro s hform
  rw [parse_line_range]
  split_ifs with hd hcl
  · have hm : '-' ∈ s := (contains_iff_mem s '-').1 hd
    have hs := splitFirst_eq '-' s hm
    cases h1 : pythonInt (splitFirst '-' s).1 with
    | none => simp [h1]
    | some a =>
      cases h2 : pythonInt (splitFirst '-' s).2 with
      | none => simp [h1, h2]
      | some b =>
        exact absurd
          (Or.inr (Or.inl ⟨_, _, hs, by simp [h1], by simp [h2]⟩)) hform
  · have hm : ':' ∈ s := (contains_iff_mem s ':').1 hcl
    have hs := splitFirst_eq ':' s hm
    cases h1 : pythonInt (splitFirst ':' s).1 with
    | none => simp [h1]
    | some a =>
      cases h2 : pythonInt (splitFirst ':' s).2 with
      | none => simp [h1, h2]
      | some b =>
        exact absurd
          (Or.inr (Or.inr ⟨_, _, hs, by simp [h1], by simp [h2]⟩)) hform
  · cases h1 : pythonInt s with
    | none => simp [h1]
    | some n => exact absurd (Or.inl (by simp [h1])) hform

/-- Closed instance of the C5 universal clause at a concrete invalid
input. -/
theorem parse_line_range_spec_witness : parse_line_range "zz".data = none := by
  refine parse_line_range_spec.2.2.2.2 "zz".data ?_
  rintro (h | ⟨a, b, hs, ha, hb⟩ | ⟨a, b, hs, ha, hb⟩)
  · exact absurd h (by decide)
  · have hm : '-' ∈ "zz".data := by
      rw [hs]
      simp
    exact absurd hm (by decide)
  · have hm : ':' ∈ "zz".data := by
      rw [hs]
      simp
    exact absurd hm (by decide)

/-- C3: the line-level creation request always carries the anchor field
line = end, and carries a start_line field exactly when start and end
differ, in which case that field holds the start line. -/
theorem lineCommentParams_spec (text head file : String) (s e : Int) :
    ("line", toString e) ∈ lineCommentParams text head file s e ∧
    (∀ v, ("start_line", v) ∈ lineCommentParams text head file s e ↔
      s ≠ e ∧ v = toString s) := by
  constructor
  · by_cases h : s = e <;> simp [lineCommentParams, h]
  · intro v
    by_cases h : s = e <;> simp [lineCommentParams, h]

/-- C6: an edit invocation whose resolved scope holds no root comment
fails with the no-comment-to-edit click error before any mutation: the
pull-request-level branch when the issue-comment list is empty (issue
comments are all roots), the file-level branch when the path scope has no
root, the line-level branch when the line scope has no root.  The error
value shows no PATCH and no creation was issued. -/
theorem edit_no_root_spec (prC : List IssueComment) (rc : List ReviewComment)
    (f : String) (l : List Char) (s e : Int) (ed : String → String)
    (patch : Except ApiError Unit) :
    (prC = [] → editCmd prC rc none none ed patch = .error .noCommentToEdit) ∧
    (latestRoot (rc.filter (fun c => c.path == f)) = none →
      editCmd prC rc (some f) none ed patch = .error .noCommentToEdit) ∧
    (parse_line_range l = some (s, e) →
      latestRoot (selectLine (rc.filter (fun c => c.path == f)) s e) = none →
      editCmd prC rc (some f) (some l) ed patch = .error .noCommentToEdit) := by
  refine ⟨?_, ?_, ?_⟩
  · rintro rfl
    rfl
  · intro h
    simp [editCmd, editScoped, h]
  · intro hp h
    simp [editCmd, editScoped, hp, h]

/-- Closed instance of the C6 theorem: empty pull-request scope, and a
file scope and line scope holding only a reply comment. -/
theorem edit_no_root_spec_witness :
    editCmd ([] : List IssueComment) [] none none (fun b => b) (.ok ())
        = .error .noCommentToEdit ∧
    editCmd [] [ReviewComment.mk 1 "x" "f" (some 3) (some 9)] (some "f") none
        (fun b => b) (.ok ()) = .error .noCommentToEdit ∧
    editCmd [] [ReviewComment.mk 1 "x" "f" (some 3) (some 9)] (some "f")
        (some "3".data) (fun b => b) (.ok ()) = .error .noCommentToEdit := by
  obtain ⟨h1, h2, h3⟩ := edit_no_root_spec []
    [ReviewComment.mk 1 "x" "f" (some 3) (some 9)] "f" "3".data 3 3
    (fun b => b) (.ok ())
  exact ⟨h1 rfl, h2 rfl, h3 rfl rfl⟩

/-- C9 counterexample: a pull-request-level edit of a comment whose body
is empty, with the editor returning that body unchanged, raises the
empty-comment error instead of terminating successfully, because the
empty check precedes the no-change check. -/
theorem edit_noop_counterexample :
    editCmd [IssueComment.mk 1 ""] [] none none (fun b => b) (.ok ())
      = .error .emptyComment := rfl

/-- C9 (amended): for every edit invocation whose resolved latest comment
has a non-empty body, if the editor returns a body equal to the existing
one the command performs no PATCH and terminates successfully with the
no-change outcome. -/
theorem edit_noop_spec (prC : List IssueComment) (rc : List ReviewComment)
    (f : String) (l : List Char) (s e : Int) (c : ReviewComment)
    (ic : IssueComment) (ed : String → String)
    (patch : Except ApiError Unit) :
    (prC.getLast? = some ic → ed ic.body = ic.body → ic.body ≠ "" →
      editCmd prC rc none none ed patch = .ok .noChange) ∧
    (latestRoot (rc.filter (fun x => x.path == f)) = some c →
      ed c.body = c.body → c.body ≠ "" →
      editCmd prC rc (some f) none ed patch = .ok .noChange) ∧
    (parse_line_range l = some (s, e) →
      latestRoot (selectLine (rc.filter (fun x => x.path == f)) s e) = some c →
      ed c.body = c.body → c.body ≠ "" →
      editCmd prC rc (some f) (some l) ed patch = .ok .noChange) := by
  refine ⟨?_, ?_, ?_⟩
  · intro h he hne
    simp [editCmd, h, he, hne]
  · intro h he hne
    simp [editCmd, editScoped, h, he, hne]
  · intro hp h he hne
    simp [editCmd, editScoped, hp, h, he, hne]

/-- Closed instance of the amended C9 theorem in all three branches. -/
theorem edit_noop_spec_witness :
    editCmd [IssueComment.mk 1 "hello"] [] none none (fun b => b) (.ok ())
        = .ok .noChange ∧
    editCmd [] [ReviewComment.mk 2 "w" "f" (some 4) none] (some "f") none
        (fun b => b) (.ok ()) = .ok .noChange ∧
    editCmd [] [ReviewComment.mk 2 "w" "f" (some 4) none] (some "f")
        (some "4".data) (fun b => b) (.ok ()) = .ok .noChange := by
  obtain ⟨h1, h2, h3⟩ := edit_noop_spec [IssueComment.mk 1 "hello"]
    [ReviewComment.mk 2 "w" "f" (some 4) none] "f" "4".data 4 4
    (ReviewComment.mk 2 "w" "f" (some 4) none) (IssueComment.mk 1 "hello")
    (fun b => b) (.ok ())
  exact ⟨h1 rfl rfl (by decide), h2 rfl rfl (by decide),
    h3 rfl rfl rfl (by decide)⟩

/-- C10: every view, comment, or edit invocation that supplies a line
option without a file option fails with the line-without-file click
error; the error value shows that nothing was listed, created, or
edited. -/
theorem line_without_file_spec (prC : List IssueComment)
    (rc : List ReviewComment) (l : List Char) (env : CommentEnv)
    (ed : String → String) (patch : Except ApiError Unit) :
    viewCmd prC rc none (some l) = .error .lineWithoutFile ∧
    commentCmd rc none (some l) env = .error .lineWithoutFile ∧
    editCmd prC rc none (some l) ed patch = .error .lineWithoutFile :=
  ⟨rfl, rfl, rfl⟩

/-- C7 counterexample: the comment command with an empty editor body
returns normally with exit zero, and a failed file-level creation call is
caught, echoed and also returns with exit zero, contradicting the claimed
non-zero termination in both cases. -/
theorem exit_behavior_counterexample :
    commentCmd [] none none
      (CommentEnv.mk none "" true true (.ok "h") (.ok ()) (.ok ()) (.ok ()))
      = .ok .emptyAborted ∧
    commentCmd [] (some "doc.md") none
      (CommentEnv.mk (some "hi") "" true true (.ok "h") (.ok ())
        (.error (.other "boom")) (.ok ()))
      = .ok (.creationFailed (.other "boom")) :=
  ⟨rfl, rfl⟩

/-- C7 (amended): invocations exit non-zero on an invalid pull-request
number, an unparseable remote URL, a malformed line range (in view,
comment and edit alike), or a failure of an unguarded external call such
as the pull-request-level creation; but the comment command with an empty
body prints a notice and exits zero creating nothing in every branch
(pull-request-, file- and line-level), and a failure of the guarded
creation call is echoed and the command still exits zero in both the
file-level and the line-level branch. -/
theorem exit_behavior_amended (n : Nat) (d : Option Nat) (r : List Char)
    (prC : List IssueComment) (rc : List ReviewComment) (f : String)
    (l : List Char) (a b : Int) (env : CommentEnv) (e : ApiError)
    (t h ed : String) (cc cn : Bool) (edf : String → String)
    (hr : Except ApiError String)
    (rr cr pc patch : Except ApiError Unit) :
    (validate_pr (some n) d false = .error .prNotFound) ∧
    (validate_pr none none false = .error .noPrDetected) ∧
    (containsSub "git@github.com".data r = false →
      containsSub "https://github.com".data r = false →
      parseRemote r = .error .configuration) ∧
    (parse_line_range l = none →
      viewCmd prC rc (some f) (some l) = .error .invalidLineRange) ∧
    (parse_line_range l = none →
      commentCmd rc (some f) (some l) env = .error .invalidLineRange) ∧
    (parse_line_range l = none →
      editCmd prC rc (some f) (some l) edf patch = .error .invalidLineRange) ∧
    (commentCmd rc none none (CommentEnv.mk none "" cc cn hr rr cr pc)
      = .ok .emptyAborted) ∧
    (commentCmd rc (some f) none (CommentEnv.mk none "" cc cn hr rr cr pc)
      = .ok .emptyAborted) ∧
    (parse_line_range l = some (a, b) →
      commentCmd rc (some f) (some l) (CommentEnv.mk none "" cc cn hr rr cr pc)
        = .ok .emptyAborted) ∧
    (t ≠ "" → latestRoot (rc.filter (fun c => c.path == f)) = none →
      commentCmd rc (some f) none
          (CommentEnv.mk (some t) ed cc cn (.ok h) rr (.error e) pc)
        = .ok (.creationFailed e)) ∧
    (parse_line_range l = some (a, b) → t ≠ "" →
      latestRoot (selectLine (rc.filter (fun c => c.path == f)) a b) = none →
      commentCmd rc (some f) (some l)
          (CommentEnv.mk (some t) ed cc cn (.ok h) rr (.error e) pc)
        = .ok (.creationFailed e)) ∧
    (t ≠ "" →
      commentCmd rc none none
          (CommentEnv.mk (some t) ed cc cn hr rr cr (.error e))
        = .error (.externalFailure e)) := by
  refine ⟨rfl, rfl, ?_, ?_, ?_, ?_, rfl, rfl, ?_, ?_, ?_, ?_⟩
  · intro h1 h2
    simp [parseRemote, h1, h2]
  · intro hp
    simp [viewCmd, hp]
  · intro hp
    simp [commentCmd, hp]
  · intro hp
    simp [editCmd, hp]
  · intro hp
    simp [commentCmd, hp, resolveText]
  · intro ht hroot
    simp [commentCmd, commentScoped, resolveText, ht, hroot]
  · intro hp ht hroot
    simp [commentCmd, commentScoped, resolveText, hp, ht, hroot]
  · intro ht
    simp [commentCmd, resolveText, ht]

/-- Closed instance of the amended C7 theorem with every hypothesis
discharged at concrete inputs, covering view, comment and edit on a
malformed range and the line-level empty-body and creation-failure
branches. -/
theorem exit_behavior_amended_witness :
    (validate_pr (some 7) none false = .error .prNotFound) ∧
    (parseRemote "ftp://example.org/x".data = .error .configuration) ∧
    (viewCmd [] [] (some "doc.md") (some "xx".data)
      = .error .invalidLineRange) ∧
    (commentCmd [] (some "doc.md") (some "xx".data)
        (CommentEnv.mk none "" true true (.ok "h") (.ok ()) (.ok ()) (.ok ()))
      = .error .invalidLineRange) ∧
    (editCmd [] [] (some "doc.md") (some "xx".data) (fun x => x) (.ok ())
      = .error .invalidLineRange) ∧
    (commentCmd [] (some "doc.md") (some "4".data)
        (CommentEnv.mk none "" true true (.ok "h") (.ok ()) (.ok ()) (.ok ()))
      = .ok .emptyAborted) ∧
    (commentCmd [] (some "doc.md") none
        (CommentEnv.mk (some "hi") "" true true (.ok "h") (.ok ())
          (.error (.other "boom")) (.ok ()))
      = .ok (.creationFailed (.other "boom"))) ∧
    (commentCmd [] (some "doc.md") (some "4".data)
        (CommentEnv.mk (some "hi") "" true true (.ok "h") (.ok ())
          (.error (.other "boom")) (.ok ()))
      = .ok (.creationFailed (.other "boom"))) ∧
    (commentCmd [] none none
        (CommentEnv.mk (some "hi") "" true true (.ok "h") (.ok ()) (.ok ())
          (.error (.other "boom")))
      = .error (.externalFailure (.other "boom"))) := by
  obtain ⟨h1, _, h3, h4, h5, h6, _, _, _, h10, _, _⟩ :=
    exit_behavior_amended 7 none "ftp://example.org/x".data [] [] "doc.md"
      "xx".data 4 4
      (CommentEnv.mk none "" true true (.ok "h") (.ok ()) (.ok ()) (.ok ()))
      (.other "boom") "hi" "h" "" true true (fun x => x) (.ok "h") (.ok ())
      (.ok ()) (.ok ()) (.ok ())
  obtain ⟨_, _, _, _, _, _, _, _, h9, _, h11, h12⟩ :=
    exit_behavior_amended 7 none "ftp://example.org/x".data [] [] "doc.md"
      "4".data 4 4
      (CommentEnv.mk none "" true true (.ok "h") (.ok ()) (.ok ()) (.ok ()))
      (.other "boom") "hi" "h" "" true true (fun x => x) (.ok "h") (.ok ())
      (.ok ()) (.ok ()) (.ok ())
  exact ⟨h1, h3 (by decide) (by decide), h4 (by decide), h5 (by decide),
    h6 (by decide), h9 (by decide), h10 (by decide) rfl,
    h11 (by decide) (by decide) rfl, h12 (by decide)⟩

theorem fileNotInPRMessage_suggests (p : String) :
    containsSub "PR-level comment instead".data (fileNotInPRMessage p).data
      = true := by
  rw [fileNotInPRMessage, String.data_append]
  exact containsSub_append_right _ (by decide)

/-- C8 counterexample: an external failure whose output contains the text
Validation Failed is wrapped in a new ValidationError message rather than
surfaced unchanged as the claim states for all non-path failures. -/
theorem gh_api_error_counterexample :
    handle_api_error "Validation Failed: boom" []
      = .validation ("GitHub API validation failed: Validation Failed: boom") ∧
    handle_api_error "Validation Failed: boom" []
      ≠ .other "Validation Failed: boom" :=
  ⟨rfl, by decide⟩

/-- C8 (amended): a failure whose output contains both the
path-resolution text and the word path raises the dedicated
FileNotInPRError whose message suggests a PR-level comment instead; of
the remaining failures, those containing Validation Failed are wrapped in
a ValidationError and all others are re-raised unchanged. -/
theorem gh_api_error_spec (out : String) (args : List String) :
    (containsSub "could not be resolved".data out.data = true →
      containsSub "path".data out.data = true →
      handle_api_error out args
          = .fileNotInPR (fileNotInPRMessage (extractFilePath args)) ∧
      containsSub "PR-level comment instead".data
          (fileNotInPRMessage (extractFilePath args)).data = true) ∧
    (¬(containsSub "could not be resolved".data out.data = true ∧
        containsSub "path".data out.data = true) →
      containsSub "Validation Failed".data out.data = true →
      handle_api_error out args
        = .validation ("GitHub API validation failed: " ++ out)) ∧
    (¬(containsSub "could not be resolved".data out.data = true ∧
        containsSub "path".data out.data = true) →
      containsSub "Validation Failed".data out.data = false →
      handle_api_error out args = .other out) := by
  refine ⟨?_, ?_, ?_⟩
  · intro h1 h2
    exact ⟨by simp [handle_api_error, h1, h2],
      fileNotInPRMessage_suggests (extractFilePath args)⟩
  · intro hc hv
    have hf : (containsSub "could not be resolved".data out.data &&
        containsSub "path".data out.data) = false := by
      cases h1 : containsSub "could not be resolved".data out.data with
      | false => rfl
      | true =>
        cases h2 : containsSub "path".data out.data with
        | false => rfl
        | true => exact absurd ⟨h1, h2⟩ hc
    simp [handle_api_error, hf, hv]
  · intro hc hv
    have hf : (containsSub "could not be resolved".data out.data &&
        containsSub "path".data out.data) = false := by
      cases h1 : containsSub "could not be resolved".data out.data with
      | false => rfl
      | true =>
        cases h2 : containsSub "path".data out.data with
        | false => rfl
        | true => exact absurd ⟨h1, h2⟩ hc
    simp [handle_api_error, hf, hv]

/-- Closed instance of the amended C8 theorem in all three branches. -/
theorem gh_api_error_spec_witness :
    (handle_api_error "the path x could not be resolved"
        ["-f", "path=doc.md"]
        = .fileNotInPR (fileNotInPRMessage "doc.md") ∧
      containsSub "PR-level comment instead".data
        (fileNotInPRMessage "doc.md").data = true) ∧
    handle_api_error "Validation Failed: nope" []
      = .validation ("GitHub API validation failed: Validation Failed: nope") ∧
    handle_api_error "socket timeout" [] = .other "socket timeout" := by
  refine ⟨?_, ?_, ?_⟩
  · have he : extractFilePath ["-f", "path=doc.md"] = "doc.md" := rfl
    have h := (gh_api_error_spec "the path x could not be resolved"
      ["-f", "path=doc.md"]).1 (by decide) (by decide)
    rw [he] at h
    exact h
  · exact (gh_api_error_spec "Validation Failed: nope" []).2.1 (by decide)
      (by decide)
  · exact (gh_api_error_spec "socket timeout" []).2.2 (by decide) (by decide)

end LGTM
